import Mathlib

/-!
Shallow embedding of the tileset-predic repository core:
the `Matrix` grid container (coord-matrix2d, concatenated into the sources),
the `MatrixTransformer` element/flag registry, the `MatrixTrainer`
adjacency trainer, and its `generate` synthesis algorithm.

External-library boundaries:
* `node-relation`'s `Relationship` is not part of this repository; it is
  modelled from the spec as an insertion-ordered adjacency list
  (see the doc comment on `TP.Relationship`).
* `shuffle-seed`'s seeded shuffle and the md5-based `Sample`/`FixedRandom`
  helpers are deterministic pure functions of the seed; they are embedded
  as explicit function parameters `shuf` and `sample` of `generate`, so
  that a fixed seed corresponds to a fixed pair of functions.
JavaScript `Map` and mutable-array behaviour is modelled explicitly
(`jsMapOfList`, and a small heap model for the mutating `restore`).
-/

set_option autoImplicit false
set_option linter.unnecessarySimpa false
set_option linter.unusedSectionVars false
set_option linter.unusedVariables false

namespace TP

variable {α : Type} [DecidableEq α]

/-- Errors raised by the Matrix class (coord-matrix2d). -/
inductive MatrixError where
  /-- Raised by the constructor when `row*col` differs from the length of the elements. -/
  | sizeMismatch : MatrixError
  /-- Raised by `Matrix.Add` / `Matrix.Sub` when `Matrix.SizeMatch` fails. -/
  | sizeNotMatch : MatrixError
  /-- Raised by bounds-checked accessors. -/
  | exceedRange : MatrixError
deriving DecidableEq

/-- Error raised by `MatrixTrainer.generate` on an unrecognized mode string. -/
inductive GenError where
  | unknownMode (mode : String) : GenError
deriving DecidableEq

/-- The `Matrix` class of coord-matrix2d: a row-major 2D container.
The JS constructor throws `sizeMismatch` when `row*col` differs from
`elements.length`; fallible construction is `Matrix.make` below, while the
bare structure mirrors an already-constructed instance. -/
structure Matrix (α : Type) where
  row : Nat
  col : Nat
  elements : List α
deriving DecidableEq

/-- Constructor of `Matrix` with the JS size check
`if (size !== elements.length) throw ...`. -/
def Matrix.make (row col : Nat) (elements : List α) : Except MatrixError (Matrix α) :=
  if row * col ≠ elements.length then .error .sizeMismatch
  else .ok ⟨row, col, elements⟩

/-- `Matrix.OutOfRange(index, max)` (with the default `min = 0`):
`index < min || index > max`. Arguments are integers because the callers
pass values such as `rowIndex - 1` that can be negative. -/
def Matrix.OutOfRange (index mx : Int) : Bool :=
  index < 0 || index > mx

/-- `Matrix.SizeMatch(a, b)`: the source computes
`a.row === b.row && a.col === b.row`, comparing `a.col` against `b.row`
even though its doc comment says it calculates with the `row` and `col`
properties. The typo is reproduced faithfully here. -/
def Matrix.SizeMatch (a b : Matrix α) : Bool :=
  a.row == b.row && a.col == b.row

/-- `Matrix.Add`: throws `sizeNotMatch` when `SizeMatch` fails, otherwise
returns the elementwise sum `new Matrix(a.row, a.col, a.elements.map((av, i) => av + b.elements[i]))`.
For genuinely equal shapes the two element lists have equal length, so
`zipWith` coincides with the JS indexwise map. -/
def Matrix.Add (a b : Matrix Int) : Except MatrixError (Matrix Int) :=
  if !(Matrix.SizeMatch a b) then .error .sizeNotMatch
  else .ok ⟨a.row, a.col, List.zipWith (· + ·) a.elements b.elements⟩

/-- `Matrix.Sub`, same shape check as `Matrix.Add`. -/
def Matrix.Sub (a b : Matrix Int) : Except MatrixError (Matrix Int) :=
  if !(Matrix.SizeMatch a b) then .error .sizeNotMatch
  else .ok ⟨a.row, a.col, List.zipWith (· - ·) a.elements b.elements⟩

/-- Unchecked element read `matrix.getElement(rowIndex, colIndex)` via the
row-major index `rowIndex * col + colIndex`; every call site in the
embedded code is guarded so the index is in range and the default is
unreachable. -/
def Matrix.getElementD [Inhabited α] (m : Matrix α) (rowIndex colIndex : Nat) : α :=
  m.elements.getD (rowIndex * m.col + colIndex) default

/-- Association-list lookup, the model of `Map.get` (first entry wins;
lists built through `ensureFlag`/`jsMapOfList` never repeat a key). -/
def alookup : List (α × Nat) → α → Option Nat
  | [], _ => none
  | p :: rest, k => if p.1 = k then some p.2 else alookup rest k

/-- `Map.set` semantics of a JavaScript Map over an insertion-ordered
association list: an existing key keeps its position and gets the new
value, a new key is appended. -/
def jsSet (l : List (α × Nat)) (k : α) (v : Nat) : List (α × Nat) :=
  if (alookup l k).isSome then l.map (fun p => if p.1 = k then (p.1, v) else p)
  else l ++ [(k, v)]

/-- `new Map(entries)` semantics: entries inserted left to right. -/
def jsMapOfList (l : List (α × Nat)) : List (α × Nat) :=
  l.foldl (fun acc p => jsSet acc p.1 p.2) []

/-- The `MatrixTransformer` registry: the insertion-ordered `Map<T, number>`
of element-to-flag entries (`__flags`). -/
structure MatrixTransformer (α : Type) where
  flags : List (α × Nat)
deriving DecidableEq

namespace MatrixTransformer

/-- The transformer constructed by `new MatrixTransformer(flags)`:
`__flags = new Map(flags)`. -/
def ofEntries (l : List (α × Nat)) : MatrixTransformer α :=
  ⟨jsMapOfList l⟩

/-- `ensureFlag(key)`: if the key is absent it is recorded with flag
`size + 1`; the (now guaranteed) flag is returned together with the
updated registry. -/
def ensureFlag (t : MatrixTransformer α) (key : α) : Nat × MatrixTransformer α :=
  match alookup t.flags key with
  | some v => (v, t)
  | none => (t.flags.length + 1, ⟨t.flags ++ [(key, t.flags.length + 1)]⟩)

/-- `getFlag(key)`: read-only lookup. -/
def getFlag (t : MatrixTransformer α) (key : α) : Option Nat :=
  alookup t.flags key

/-- `hasKey(flag)`: scans the Map values for the flag. -/
def hasKey (t : MatrixTransformer α) (flag : Nat) : Bool :=
  (t.flags.map Prod.snd).contains flag

/-- `getKey(flag)`: first key holding the flag (linear scan). -/
def getKey (t : MatrixTransformer α) (flag : Nat) : Option α :=
  (t.flags.find? (fun p => p.2 = flag)).map Prod.fst

/-- `embedding(matrix)`: maps every cell through `ensureFlag`, returning the
flag matrix together with the updated registry (the JS method mutates
`this`). -/
def embedding (t0 : MatrixTransformer α) (m : Matrix α) :
    Matrix Nat × MatrixTransformer α :=
  let st := m.elements.foldl
    (fun (acc : List Nat × MatrixTransformer α) e =>
      let r := ensureFlag acc.2 e
      (acc.1 ++ [r.1], r.2))
    ([], t0)
  (⟨m.row, m.col, st.1⟩, st.2)

end MatrixTransformer

/-- Modelled from the spec: the raw `Relationship` class of the external
`node-relation` package (not part of this repository) is "a directed
multi-relation primitive: `addEdge(a,b)`, `neighborsOf(node)` returning a
deduplicated list, `mergeEdges(list)` for bulk insertion, and
`exportEdges()/importEdges()` for the dataset tuple", where the underlying
store may hold duplicate edges. It is modelled as an insertion-ordered
adjacency list; the constructor imports a dataset verbatim and the
`dataset` getter exports the store verbatim. -/
structure Relationship where
  relations : List (Nat × List Nat)
deriving DecidableEq

namespace Relationship

/-- Neighbor list as stored: `relations.get(node) ?? []`. -/
def get (r : Relationship) (k : Nat) : List Nat :=
  match r.relations.find? (fun p => p.1 = k) with
  | some p => p.2
  | none => []

/-- Append neighbors to a node's edge list (duplicates allowed in the
store), creating the node on first use. -/
def append (r : Relationship) (a : Nat) (bs : List Nat) : Relationship :=
  if (r.relations.find? (fun p => p.1 = a)).isSome then
    ⟨r.relations.map (fun p => if p.1 = a then (p.1, p.2 ++ bs) else p)⟩
  else ⟨r.relations ++ [(a, bs)]⟩

/-- Modelled from the spec: `to(a, b)` records the directed edge a→b. -/
def toEdge (r : Relationship) (a b : Nat) : Relationship :=
  r.append a [b]

/-- Modelled from the spec: `merge(dataset)` bulk-inserts edge lists. -/
def merge (r : Relationship) (ds : List (Nat × List Nat)) : Relationship :=
  ds.foldl (fun acc p => acc.append p.1 p.2) r

end Relationship

/-- Serialized trainer state `MatrixTrainerDataset`:
`[flags, xn.dataset, yn.dataset, sim.dataset]`. -/
def MTDataset (α : Type) :=
  List (α × Nat) × List (Nat × List Nat) × List (Nat × List Nat) × List (Nat × List Nat)

/-- The `MatrixTrainer`: the inherited registry plus the rightward (`__xn`),
downward (`__yn`), and alias (`__sim`) relationship graphs. -/
structure MatrixTrainer (α : Type) extends MatrixTransformer α where
  xn : Relationship
  yn : Relationship
  sim : Relationship
deriving DecidableEq

namespace MatrixTrainer

/-- A freshly constructed trainer (`new MatrixTrainer()`): empty registry,
empty graphs. -/
def empty (α : Type) : MatrixTrainer α :=
  { flags := [], xn := ⟨[]⟩, yn := ⟨[]⟩, sim := ⟨[]⟩ }

/-- `ensureFlag` lifted to the trainer (the JS method is inherited and
mutates the shared `__flags`). -/
def ensureFlagT (t : MatrixTrainer α) (key : α) : Nat × MatrixTrainer α :=
  let r := t.toMatrixTransformer.ensureFlag key
  (r.1, { t with toMatrixTransformer := r.2 })

/-- `trainer.dataset`: the serializable 4-tuple
`[Array.from(__flags), __xn.dataset, __yn.dataset, __sim.dataset]`. -/
def dataset (t : MatrixTrainer α) : MTDataset α :=
  (t.flags, t.xn.relations, t.yn.relations, t.sim.relations)

/-- `load(dataset)`: full replacement of all four components;
`__flags = new Map(flags)` and each graph is rebuilt from its dataset. -/
def load (_t : MatrixTrainer α) (ds : MTDataset α) : MatrixTrainer α :=
  { flags := jsMapOfList ds.1, xn := ⟨ds.2.1⟩, yn := ⟨ds.2.2.1⟩, sim := ⟨ds.2.2.2⟩ }

/-- Order-preserving deduplication, first occurrence kept (lodash `uniq`). -/
def uniqAux : List Nat → List Nat → List Nat
  | [], _ => []
  | x :: rest, seen => if x ∈ seen then uniqAux rest seen else x :: uniqAux rest (x :: seen)

/-- Lodash `uniq`. -/
def uniq (l : List Nat) : List Nat := uniqAux l []

/-- `aliases(element)`: `[element, ...(sim.relations.get(element) ?? [])]`. -/
def aliases (t : MatrixTrainer α) (element : Nat) : List Nat :=
  element :: t.sim.get element

/-- `nextElements(relation, element)`: `uniq(relation.relations.get(element) ?? [])`. -/
def nextElements (rel : Relationship) (element : Nat) : List Nat :=
  uniq (rel.get element)

/-- `nextAliases(relation, element)`: union over every alias of `element`
of its stored successors, each successor then expanded to its own aliases,
deduplicated. -/
def nextAliases (t : MatrixTrainer α) (rel : Relationship) (element : Nat) : List Nat :=
  let children := (t.aliases element).flatMap (fun a => nextElements rel a)
  uniq (children.flatMap (fun v => t.aliases v))

/-- `nextAliases` applied to a possibly-undefined matrix cell: in JS,
`aliases(undefined)` is `[undefined]` and `relations.get(undefined) ?? []`
is `[]`, so the whole expansion of `undefined` is `[]`. -/
def nextAliasesC (t : MatrixTrainer α) (rel : Relationship) : Option Nat → List Nat
  | some f => t.nextAliases rel f
  | none => []

/-- One member registration inside `ally`'s `values.map((v) => this.ensureFlag(v))`,
threading the registry. -/
def allyInnerStep (vacc : List Nat × MatrixTrainer α) (v : α) : List Nat × MatrixTrainer α :=
  let rv := vacc.2.ensureFlagT v
  (vacc.1 ++ [rv.1], rv.2)

/-- One group of `ally`'s `aliases.map((tuple) => ...)`: register the
representative, then every member, producing the flag-level tuple. -/
def allyStep (acc : List (Nat × List Nat) × MatrixTrainer α) (tup : α × List α) :
    List (Nat × List Nat) × MatrixTrainer α :=
  let rk := acc.2.ensureFlagT tup.1
  let rvs := tup.2.foldl allyInnerStep ([], rk.2)
  (acc.1 ++ [(rk.1, rvs.1)], rvs.2)

/-- `ally(aliases)`: registers every group's representative and members
through `ensureFlag` (in source order) and merges the flag-level groups
into the `__sim` graph. -/
def ally (t0 : MatrixTrainer α) (groups : List (α × List α)) : MatrixTrainer α :=
  let st := groups.foldl allyStep ([], t0)
  { st.2 with sim := st.2.sim.merge st.1 }

/-- The body of `train`'s `matrix.elements.forEach((element, i) => ...)`:
register the cell's flag; when a top neighbor exists add the y-edge
top→current, when a left neighbor exists add the x-edge left→current
(both neighbors read from the source matrix and registered through
`ensureFlag`). -/
def trainStep [Inhabited α] (m : Matrix α) (t : MatrixTrainer α) (p : Nat × α) :
    MatrixTrainer α :=
  let i := p.1
  let element := p.2
  let rowIndex := i / m.col
  let colIndex := i % m.col
  let re := t.ensureFlagT element
  let flag := re.1
  let t1 := re.2
  let t2 :=
    if !(Matrix.OutOfRange ((rowIndex : Int) - 1) ((m.row : Int) - 1)) then
      let rt := t1.ensureFlagT (m.getElementD (rowIndex - 1) colIndex)
      { rt.2 with yn := rt.2.yn.toEdge rt.1 flag }
    else t1
  if !(Matrix.OutOfRange ((colIndex : Int) - 1) ((m.col : Int) - 1)) then
    let rl := t2.ensureFlagT (m.getElementD rowIndex (colIndex - 1))
    { rl.2 with xn := rl.2.xn.toEdge rl.1 flag }
  else t2

/-- `train(matrix)`: run `trainStep` over every (index, element) pair of
the matrix in row-major order. -/
def train [Inhabited α] (t0 : MatrixTrainer α) (m : Matrix α) : MatrixTrainer α :=
  m.elements.enum.foldl (trainStep m) t0

end MatrixTrainer

namespace MatrixTrainer

/-- `hasTop(rowIndex)` inside `generate`:
`!Matrix.OutOfRange(rowIndex-1, mat.row-1)`. -/
def hasTopB (row rowIndex : Nat) : Bool :=
  !(Matrix.OutOfRange ((rowIndex : Int) - 1) ((row : Int) - 1))

/-- `hasLeft(colIndex)` inside `generate`:
`!Matrix.OutOfRange(colIndex-1, mat.col-1)`. -/
def hasLeftB (col colIndex : Nat) : Bool :=
  !(Matrix.OutOfRange ((colIndex : Int) - 1) ((col : Int) - 1))

/-- Read of the work matrix `mat.getElement(r, c)` during generation. Cells
hold `some flag` (`0` for the initial fill), or `none` for a JS `undefined`
written by the fill fallback when sampling an empty list. Every read is
guarded in range, so the `none` default is unreachable. -/
def matGet (mat : List (Option Nat)) (col r c : Nat) : Option Nat :=
  mat.getD (r * col + c) none

/-- Outcome of examining one candidate `sub` in the scan loop of
`generate`: `break` out of the loop, `continue` with the next candidate,
or fall through to `element = sub; subs = xAliases`. -/
inductive Verdict where
  | breakScan : Verdict
  | skip : Verdict
  | accept (xAliases : List Nat) : Verdict
deriving DecidableEq

/-- The body of `for (const sub of subs)` in `generate`, for one candidate:
compute `xAliases`/`yAliases` and break when either is empty; compute the
(unused, dead-code) `xs`/`ys` unions; reject when a placed top and left
neighbor exist but the candidate is not in both of their expansions;
reject when the lookahead guard `hasTop(rowIndex) && hasLeft(colIndex+2)`
holds but the expansion of the top-right diagonal neighbor meets
`xAliases` nowhere; otherwise accept. -/
def judge (t : MatrixTrainer α) (mat : List (Option Nat)) (row col rowIndex colIndex : Nat)
    (sub : Nat) : Verdict :=
  let xAliases := t.nextAliases t.xn sub
  let yAliases := t.nextAliases t.yn sub
  if xAliases.isEmpty || yAliases.isEmpty then .breakScan
  else
    let xs := uniq (xAliases.flatMap (fun x => t.nextAliases t.yn x))
    let ys := uniq (yAliases.flatMap (fun y => t.nextAliases t.xn y))
    let _ := xs
    let _ := ys
    if hasTopB row rowIndex && hasLeftB col colIndex then
      let xConnectable := (t.nextAliasesC t.xn (matGet mat col rowIndex (colIndex - 1))).contains sub
      let yConnectable := (t.nextAliasesC t.yn (matGet mat col (rowIndex - 1) colIndex)).contains sub
      if !xConnectable || !yConnectable then .skip
      else if hasTopB row rowIndex && hasLeftB col (colIndex + 2) then
        let nt := matGet mat col (rowIndex - 1) (colIndex + 1)
        let nConnectable := (t.nextAliasesC t.yn nt).filter (fun v => xAliases.contains v)
        if nConnectable.isEmpty then .skip else .accept xAliases
      else .accept xAliases
    else if hasTopB row rowIndex && hasLeftB col (colIndex + 2) then
      let nt := matGet mat col (rowIndex - 1) (colIndex + 1)
      let nConnectable := (t.nextAliasesC t.yn nt).filter (fun v => xAliases.contains v)
      if nConnectable.isEmpty then .skip else .accept xAliases
    else .accept xAliases

/-- The scan `for (const sub of subs) {...}` over the shuffled candidate
list: `elem`/`subs` are the loop-carried `element` and `subs` variables;
`break` returns them as they stand, `continue` leaves them unchanged, and
an accepted candidate overwrites both (the source has no `break` after
acceptance, so scanning continues). -/
def scanSubs (t : MatrixTrainer α) (mat : List (Option Nat)) (row col rowIndex colIndex : Nat) :
    List Nat → Option Nat → List Nat → Option Nat × List Nat
  | [], elem, subs => (elem, subs)
  | sub :: rest, elem, subs =>
    match judge t mat row col rowIndex colIndex sub with
    | .breakScan => (elem, subs)
    | .skip => scanSubs t mat row col rowIndex colIndex rest elem subs
    | .accept xAliases => scanSubs t mat row col rowIndex colIndex rest (some sub) xAliases

/-- Options record of `generate`; `none` fields model absent keys of the
`Partial<MatrixGenerateOptions>` argument, replaced by the defaults
`useCache: true`, `mode: 'quality'` by the spread merge. -/
structure GenOptions where
  useCache : Option Bool
  mode : Option String
deriving DecidableEq

/-- Result record of `generate`. -/
structure GenResult (α : Type) where
  score : ℚ
  result : Matrix α
deriving DecidableEq

/-- Reverse-mapping of one generated cell by `restore(mat, ambient)`:
a flag with a registered key maps to that key, anything else (the `0`
initial fill of an unresolved cell, an unregistered flag, or a JS
`undefined` cell) maps to the ambient fill. -/
def restoreCellO (t : MatrixTrainer α) (ambient : α) : Option Nat → α
  | some f =>
      if t.toMatrixTransformer.hasKey f then (t.toMatrixTransformer.getKey f).getD ambient
      else ambient
  | none => ambient

/-- The cell loop of `generate` (`for i < mat.elements.length`), recursing
on the number of remaining cells. State: current flat index `i`, current
candidate pool `subs`, current work matrix `mat`. At the start of every
row after the first, the pool is reseeded from the y-expansion of the
first cell of the previous row; the pool is then shuffled (`shuf` is the
seeded shuffle at the caller's fixed seed) and scanned. When no candidate
is accepted: `quality` aborts with `score = i`; `fill` samples from the
pool (or from `nodes` when the pool is empty) with the seeded `sample`
and continues; any other mode throws. Normal completion keeps the initial
score `mat.size = row * col`. -/
def genLoop (t : MatrixTrainer α) (shuf : List Nat → List Nat) (sample : List Nat → Option Nat)
    (mode : String) (row col : Nat) (nodes : List Nat) :
    Nat → Nat → List Nat → List (Option Nat) → Except GenError (Nat × List (Option Nat))
  | 0, _, _, mat => .ok (row * col, mat)
  | n + 1, i, subs, mat =>
    let rowIndex := i / col
    let colIndex := i % col
    let subs1 :=
      if colIndex = 0 ∧ 0 < rowIndex then
        t.nextAliasesC t.yn (matGet mat col (rowIndex - 1) 0)
      else subs
    let subs2 := shuf subs1
    match scanSubs t mat row col rowIndex colIndex subs2 none subs2 with
    | (some e, subs3) =>
        genLoop t shuf sample mode row col nodes n (i + 1) subs3 (mat.set i (some e))
    | (none, subs3) =>
        if mode = "quality" then .ok (i, mat)
        else if mode = "fill" then
          let localAliases := if subs3.isEmpty then nodes else subs3
          let e := sample localAliases
          genLoop t shuf sample mode row col nodes n (i + 1) (t.nextAliasesC t.xn e) (mat.set i e)
        else .error (.unknownMode mode)

/-- `generate(row, col, ambient, seed, options)`. The seeded shuffle and
the seeded sampler are deterministic pure functions of the caller's seed
(shuffle-seed and the md5-based `Sample`); they are passed as the function
parameters `shuf` and `sample`. The opt-in query cache memoizes the pure
`aliases`/`nextElements`/`nextAliases` functions and is observationally
the identity while the graphs are unchanged, so it is not reified.
The final `restore(mat, ambient)` mutates and returns the work matrix;
only its value matters here. -/
def generate (t : MatrixTrainer α) (shuf : List Nat → List Nat)
    (sample : List Nat → Option Nat) (row col : Nat) (ambient : α) (opts : GenOptions) :
    Except GenError (GenResult α) :=
  let mode := opts.mode.getD "quality"
  let size := row * col
  let nodes := uniq (t.flags.map Prod.snd)
  match genLoop t shuf sample mode row col nodes size 0 nodes (List.replicate size (some 0)) with
  | .error e => .error e
  | .ok (score, cells) =>
      .ok ⟨(score : ℚ) / (size : ℚ), ⟨row, col, cells.map (t.restoreCellO ambient)⟩⟩

/-- Claim-variant of `judge` for refinement comparison. It follows the
claim's words for C6: the lookahead check runs "when the cell two columns
ahead would itself have a top neighbor, i.e. when row > 0 and column+2 is
a valid column index" — guard `0 < rowIndex && colIndex + 2 < col` —
instead of the source's `hasTop(rowIndex) && hasLeft(colIndex+2)`.
Everything else is identical to `judge`. -/
def judgeSpec (t : MatrixTrainer α) (mat : List (Option Nat)) (row col rowIndex colIndex : Nat)
    (sub : Nat) : Verdict :=
  let xAliases := t.nextAliases t.xn sub
  let yAliases := t.nextAliases t.yn sub
  if xAliases.isEmpty || yAliases.isEmpty then .breakScan
  else
    if hasTopB row rowIndex && hasLeftB col colIndex then
      let xConnectable := (t.nextAliasesC t.xn (matGet mat col rowIndex (colIndex - 1))).contains sub
      let yConnectable := (t.nextAliasesC t.yn (matGet mat col (rowIndex - 1) colIndex)).contains sub
      if !xConnectable || !yConnectable then .skip
      else if decide (0 < rowIndex) && decide (colIndex + 2 < col) then
        let nt := matGet mat col (rowIndex - 1) (colIndex + 1)
        let nConnectable := (t.nextAliasesC t.yn nt).filter (fun v => xAliases.contains v)
        if nConnectable.isEmpty then .skip else .accept xAliases
      else .accept xAliases
    else if decide (0 < rowIndex) && decide (colIndex + 2 < col) then
      let nt := matGet mat col (rowIndex - 1) (colIndex + 1)
      let nConnectable := (t.nextAliasesC t.yn nt).filter (fun v => xAliases.contains v)
      if nConnectable.isEmpty then .skip else .accept xAliases
    else .accept xAliases

/-- Scan loop built on `judgeSpec` (claim-variant for C6). -/
def scanSubsSpec (t : MatrixTrainer α) (mat : List (Option Nat)) (row col rowIndex colIndex : Nat) :
    List Nat → Option Nat → List Nat → Option Nat × List Nat
  | [], elem, subs => (elem, subs)
  | sub :: rest, elem, subs =>
    match judgeSpec t mat row col rowIndex colIndex sub with
    | .breakScan => (elem, subs)
    | .skip => scanSubsSpec t mat row col rowIndex colIndex rest elem subs
    | .accept xAliases => scanSubsSpec t mat row col rowIndex colIndex rest (some sub) xAliases

/-- Cell loop built on `scanSubsSpec` (claim-variant for C6). -/
def genLoopSpec (t : MatrixTrainer α) (shuf : List Nat → List Nat)
    (sample : List Nat → Option Nat) (mode : String) (row col : Nat) (nodes : List Nat) :
    Nat → Nat → List Nat → List (Option Nat) → Except GenError (Nat × List (Option Nat))
  | 0, _, _, mat => .ok (row * col, mat)
  | n + 1, i, subs, mat =>
    let rowIndex := i / col
    let colIndex := i % col
    let subs1 :=
      if colIndex = 0 ∧ 0 < rowIndex then
        t.nextAliasesC t.yn (matGet mat col (rowIndex - 1) 0)
      else subs
    let subs2 := shuf subs1
    match scanSubsSpec t mat row col rowIndex colIndex subs2 none subs2 with
    | (some e, subs3) =>
        genLoopSpec t shuf sample mode row col nodes n (i + 1) subs3 (mat.set i (some e))
    | (none, subs3) =>
        if mode = "quality" then .ok (i, mat)
        else if mode = "fill" then
          let localAliases := if subs3.isEmpty then nodes else subs3
          let e := sample localAliases
          genLoopSpec t shuf sample mode row col nodes n (i + 1) (t.nextAliasesC t.xn e) (mat.set i e)
        else .error (.unknownMode mode)

/-- Generator built on `genLoopSpec` (claim-variant for C6): identical to
`generate` except that the lookahead guard follows the claim's words. -/
def generateSpec (t : MatrixTrainer α) (shuf : List Nat → List Nat)
    (sample : List Nat → Option Nat) (row col : Nat) (ambient : α) (opts : GenOptions) :
    Except GenError (GenResult α) :=
  let mode := opts.mode.getD "quality"
  let size := row * col
  let nodes := uniq (t.flags.map Prod.snd)
  match genLoopSpec t shuf sample mode row col nodes size 0 nodes (List.replicate size (some 0)) with
  | .error e => .error e
  | .ok (score, cells) =>
      .ok ⟨(score : ℚ) / (size : ℚ), ⟨row, col, cells.map (t.restoreCellO ambient)⟩⟩

end MatrixTrainer

section ConcreteStates

open MatrixTrainer

/-- Sampler that never returns an element; satisfies the membership
property of `Sample` vacuously (used where the fill fallback is never
reached or its value is irrelevant). -/
def sampleNone : List Nat → Option Nat := fun _ => none

/-- Default (empty) options object: mode defaults to `quality`. -/
def defOpts : GenOptions := ⟨none, none⟩

/-- Sampler returning the first element; a concrete stand-in for the
seeded `Sample` at some seed, satisfying its membership property. -/
def sampleHead : List Nat → Option Nat := fun l => l.head?

/-- Trainer trained on the single 2×2 example grid `[[10,20],[20,10]]`
(elements are numbers): flags `10 ↦ 1`, `20 ↦ 2`; x-edges `1→2`, `2→1`;
y-edges `1→2`, `2→1`. -/
def tTwo : MatrixTrainer Nat :=
  (MatrixTrainer.empty Nat).train ⟨2, 2, [10, 20, 20, 10]⟩

/-- Trainer state loaded from a concrete dataset with four flags,
x-edges `1↔2`, `3↔4` and y-edges `1→3`, `2→4`, `3→2`, `4→2`
(the shape used to separate the source's lookahead guard from the
claim's). -/
def tFour : MatrixTrainer Nat :=
  (MatrixTrainer.empty Nat).load
    ([(10, 1), (20, 2), (30, 3), (40, 4)],
     [(1, [2]), (2, [1]), (3, [4]), (4, [3])],
     [(1, [3]), (2, [4]), (3, [2]), (4, [2])],
     [])

end ConcreteStates

/-!
Heap model for the mutating `MatrixTransformer.restore`. JS arrays are
references into a store; `restore` builds its result matrix with
`new Matrix<T>(row, col, elements as any)`, passing the *same* array
object, and then overwrites that array in place. A heap cell holds either
a still-unrestored flag (`Sum.inl`) or a written-back element (`Sum.inr`).
-/

/-- A store of JS arrays; an array reference is an index into `arrays`. -/
structure Heap (α : Type) where
  arrays : List (List (Nat ⊕ α))
deriving DecidableEq

/-- A `Matrix` value whose `elements` field is an array reference. -/
structure MatRef where
  row : Nat
  col : Nat
  aid : Nat
deriving DecidableEq

/-- Restoration of one slot, as computed inside the `forEach` of
`restore`: a flag with a registered key becomes that key, an unregistered
flag becomes `nonExistsFill`; a slot that already holds a non-flag value
(impossible on a flag matrix) fails `hasKey` and also becomes the fill. -/
def restoreRVal (t : MatrixTransformer α) (fill : α) : Nat ⊕ α → Nat ⊕ α
  | .inl f =>
      if t.hasKey f then .inr ((t.getKey f).getD fill) else .inr fill
  | .inr _ => .inr fill

/-- The `elements.forEach((element, i) => { mat.elements[i] = ... })` loop
of `restore`: `n` slots remain, `i` is the next index; each step reads
slot `i` of the (possibly already partially overwritten) array and writes
the restored value back to the same slot. -/
def restoreLoop (t : MatrixTransformer α) (fill : α) (aid : Nat) :
    Nat → Nat → Heap α → Heap α
  | 0, _, h => h
  | n + 1, i, h =>
    let arr := h.arrays.getD aid []
    let v := restoreRVal t fill (arr.getD i (.inr fill))
    restoreLoop t fill aid n (i + 1) ⟨h.arrays.set aid (arr.set i v)⟩

/-- `restore(matrix, nonExistsFill)` on the heap: destructure
`{row, col, elements}`, build `new Matrix(row, col, elements as any)` —
the same array reference, after the constructor's size check — then run
the overwrite loop. Returns the new matrix value (sharing the input's
array) and the post-call heap. -/
def restore (t : MatrixTransformer α) (h : Heap α) (m : MatRef) (fill : α) :
    Except MatrixError (MatRef × Heap α) :=
  let arr := h.arrays.getD m.aid []
  if m.row * m.col ≠ arr.length then .error .sizeMismatch
  else .ok (⟨m.row, m.col, m.aid⟩, restoreLoop t fill m.aid arr.length 0 h)

/-!
Derived predicates used to state the claims.
-/

namespace MatrixTrainer

/-- Invariant of the flag registry: the recorded flags are `1, 2, …, n` in
insertion order (so `size + 1` is always fresh) and no element is
registered twice. -/
def FlagInv (t : MatrixTransformer α) : Prop :=
  t.flags.map Prod.snd = (List.range t.flags.length).map (· + 1) ∧
  (t.flags.map Prod.fst).Nodup

/-- A candidate on which the scan loop does not break (its `xAliases` and
`yAliases` are both nonempty). -/
def viableB (t : MatrixTrainer α) (mat : List (Option Nat)) (row col rowIndex colIndex : Nat)
    (sub : Nat) : Bool :=
  match judge t mat row col rowIndex colIndex sub with
  | .breakScan => false
  | _ => true

/-- A candidate that passes all checks of the scan loop (the fall-through
to `element = sub`). -/
def acceptsB (t : MatrixTrainer α) (mat : List (Option Nat)) (row col rowIndex colIndex : Nat)
    (sub : Nat) : Bool :=
  match judge t mat row col rowIndex colIndex sub with
  | .accept _ => true
  | _ => false

/-- The candidate the scan loop actually leaves in `element`: the *last*
accepting candidate among the prefix scanned before the first
non-viable candidate. -/
def lastAccepted (t : MatrixTrainer α) (mat : List (Option Nat)) (row col rowIndex colIndex : Nat)
    (l : List Nat) : Option Nat :=
  ((l.takeWhile (viableB t mat row col rowIndex colIndex)).filter
    (acceptsB t mat row col rowIndex colIndex)).getLast?

/-- The candidate the claim says is accepted: the *first* candidate of the
shuffled pool passing all checks. -/
def firstAccepted (t : MatrixTrainer α) (mat : List (Option Nat)) (row col rowIndex colIndex : Nat)
    (l : List Nat) : Option Nat :=
  l.find? (acceptsB t mat row col rowIndex colIndex)

/-- Arithmetic reference version of `judge` (the amended C6): identical
body, with the source's `hasTop(rowIndex) && hasLeft(colIndex)` guard
written as `1 ≤ rowIndex ∧ 1 ≤ colIndex` and the lookahead guard
`hasTop(rowIndex) && hasLeft(colIndex+2)` written as
`1 ≤ rowIndex ∧ colIndex + 2 ≤ col` — the plain arithmetic meaning of
those tests for in-range cell coordinates (`rowIndex < row`,
`colIndex < col`). Note `colIndex + 2 ≤ col`, not the claim's
"`colIndex + 2` is a valid column index" (`colIndex + 2 < col`). -/
def judgeN (t : MatrixTrainer α) (mat : List (Option Nat)) (row col rowIndex colIndex : Nat)
    (sub : Nat) : Verdict :=
  let xAliases := t.nextAliases t.xn sub
  let yAliases := t.nextAliases t.yn sub
  if xAliases.isEmpty || yAliases.isEmpty then .breakScan
  else
    let xs := uniq (xAliases.flatMap (fun x => t.nextAliases t.yn x))
    let ys := uniq (yAliases.flatMap (fun y => t.nextAliases t.xn y))
    let _ := xs
    let _ := ys
    if decide (1 ≤ rowIndex) && decide (1 ≤ colIndex) then
      let xConnectable := (t.nextAliasesC t.xn (matGet mat col rowIndex (colIndex - 1))).contains sub
      let yConnectable := (t.nextAliasesC t.yn (matGet mat col (rowIndex - 1) colIndex)).contains sub
      if !xConnectable || !yConnectable then .skip
      else if decide (1 ≤ rowIndex) && decide (colIndex + 2 ≤ col) then
        let nt := matGet mat col (rowIndex - 1) (colIndex + 1)
        let nConnectable := (t.nextAliasesC t.yn nt).filter (fun v => xAliases.contains v)
        if nConnectable.isEmpty then .skip else .accept xAliases
      else .accept xAliases
    else if decide (1 ≤ rowIndex) && decide (colIndex + 2 ≤ col) then
      let nt := matGet mat col (rowIndex - 1) (colIndex + 1)
      let nConnectable := (t.nextAliasesC t.yn nt).filter (fun v => xAliases.contains v)
      if nConnectable.isEmpty then .skip else .accept xAliases
    else .accept xAliases

end MatrixTrainer

/-!
Theorems. General-purpose list/association-list helpers first, then the
claim theorems with their witnesses and counterexamples.
-/

section ListHelpers

variable {β : Type}

theorem tp_getD_append_length (done : List β) (v : β) (rest : List β) (d : β) :
    (done ++ v :: rest).getD done.length d = v := by
  induction done with
  | nil => rfl
  | cons a l ih => simpa using ih

theorem tp_set_append_length (done : List β) (v w : β) (rest : List β) :
    (done ++ v :: rest).set done.length w = done ++ w :: rest := by
  induction done with
  | nil => rfl
  | cons a l ih => simpa using ih

theorem tp_set_getD_self (l : List β) (i : Nat) (d : β) (h : i < l.length) :
    l.set i (l.getD i d) = l := by
  induction l generalizing i with
  | nil => simp at h
  | cons a t ih =>
    cases i with
    | zero => rfl
    | succ j => simpa using ih j (by simpa using h)

theorem tp_getD_set_self (l : List β) (i : Nat) (x d : β) (h : i < l.length) :
    (l.set i x).getD i d = x := by
  induction l generalizing i with
  | nil => simp at h
  | cons a t ih =>
    cases i with
    | zero => rfl
    | succ j => simpa using ih j (by simpa using h)

theorem tp_getD_set_ne (l : List β) (i j : Nat) (x d : β) (h : i ≠ j) :
    (l.set i x).getD j d = l.getD j d := by
  induction l generalizing i j with
  | nil => simp [List.set]
  | cons a t ih =>
    cases i with
    | zero =>
      cases j with
      | zero => exact absurd rfl h
      | succ k => rfl
    | succ i' =>
      cases j with
      | zero => rfl
      | succ k => simpa using ih i' k (by omega)

theorem tp_getD_map {γ : Type} (f : β → γ) (l : List β) (j : Nat) (d : γ) (d' : β)
    (h : j < l.length) : (l.map f).getD j d = f (l.getD j d') := by
  induction l generalizing j with
  | nil => simp at h
  | cons a t ih =>
    cases j with
    | zero => rfl
    | succ k => simpa using ih k (by simpa using h)

theorem tp_getD_replicate (n j : Nat) (a d : β) (h : j < n) :
    (List.replicate n a).getD j d = a := by
  induction n generalizing j with
  | zero => omega
  | succ m ih =>
    cases j with
    | zero => rfl
    | succ k => simpa [List.replicate] using ih k (by omega)

theorem tp_getLast?_cons (a : β) (l : List β) :
    (a :: l).getLast? = some (l.getLast?.getD a) := by
  cases l with
  | nil => rfl
  | cons b t =>
    rw [List.getLast?_cons_cons]
    cases h : (b :: t).getLast? with
    | some x => rfl
    | none => exact absurd (List.getLast?_eq_none_iff.mp h) (by simp)

end ListHelpers

section ALookupHelpers

theorem alookup_eq_none_iff (l : List (α × Nat)) (k : α) :
    alookup l k = none ↔ k ∉ l.map Prod.fst := by
  induction l with
  | nil => simp [alookup]
  | cons p rest ih =>
    by_cases h : p.1 = k
    · simp [alookup, h]
    · simp [alookup, h, ih, Ne.symm h]

theorem alookup_some_mem (l : List (α × Nat)) (k : α) (v : Nat)
    (h : alookup l k = some v) : v ∈ l.map Prod.snd := by
  induction l with
  | nil => simp [alookup] at h
  | cons p rest ih =>
    by_cases hp : p.1 = k
    · simp [alookup, hp] at h
      simp [h.symm]
    · simp [alookup, hp] at h
      simp [ih h]

theorem alookup_inj (l : List (α × Nat)) (hnd : (l.map Prod.snd).Nodup)
    (a b : α) (fa fb : Nat) (ha : alookup l a = some fa) (hb : alookup l b = some fb)
    (hab : a ≠ b) : fa ≠ fb := by
  induction l with
  | nil => simp [alookup] at ha
  | cons p rest ih =>
    have hnd' : (rest.map Prod.snd).Nodup := (List.nodup_cons.mp (by simpa using hnd)).2
    have hni : p.2 ∉ rest.map Prod.snd := (List.nodup_cons.mp (by simpa using hnd)).1
    by_cases hpa : p.1 = a
    · have hfa : fa = p.2 := by simp [alookup, hpa] at ha; omega
      have hpb : ¬ p.1 = b := by rw [hpa]; exact hab
      have hb' : alookup rest b = some fb := by simpa [alookup, hpb] using hb
      have : fb ∈ rest.map Prod.snd := alookup_some_mem rest b fb hb'
      intro he; rw [hfa] at he; exact hni (he ▸ this)
    · by_cases hpb : p.1 = b
      · have hfb : fb = p.2 := by simp [alookup, hpb] at hb; omega
        have ha' : alookup rest a = some fa := by simpa [alookup, hpa] using ha
        have : fa ∈ rest.map Prod.snd := alookup_some_mem rest a fa ha'
        intro he; rw [hfb] at he; exact hni (he ▸ this)
      · exact ih hnd' (by simpa [alookup, hpa] using ha) (by simpa [alookup, hpb] using hb)

theorem jsMapOfList_self (l : List (α × Nat)) (hnd : (l.map Prod.fst).Nodup) :
    jsMapOfList l = l := by
  suffices h : ∀ (rest acc : List (α × Nat)), ((acc ++ rest).map Prod.fst).Nodup →
      rest.foldl (fun a p => jsSet a p.1 p.2) acc = acc ++ rest by
    simpa using h l [] (by simpa using hnd)
  intro rest
  induction rest with
  | nil => intro acc _; simp
  | cons p tl ih =>
    intro acc hacc
    have hmem : p.1 ∉ acc.map Prod.fst := by
      have hsplit : ((acc ++ p :: tl).map Prod.fst) = acc.map Prod.fst ++ p.1 :: tl.map Prod.fst := by
        simp
      rw [hsplit] at hacc
      intro hm
      exact (List.nodup_append.mp hacc).2.2 hm (by simp)
    have hnone : alookup acc p.1 = none := (alookup_eq_none_iff acc p.1).mpr hmem
    have hset : jsSet acc p.1 p.2 = acc ++ [p] := by
      simp [jsSet, hnone]
    calc (p :: tl).foldl (fun a q => jsSet a q.1 q.2) acc
        = tl.foldl (fun a q => jsSet a q.1 q.2) (acc ++ [p]) := by simp [hset]
      _ = (acc ++ [p]) ++ tl := ih (acc ++ [p]) (by simpa using hacc)
      _ = acc ++ p :: tl := by simp

theorem tp_foldl_preserves {σ β : Type} (P : σ → Prop) (f : σ → β → σ)
    (hf : ∀ s b, P s → P (f s b)) :
    ∀ (l : List β) (init : σ), P init → P (l.foldl f init) := by
  intro l
  induction l with
  | nil => intro init h; simpa using h
  | cons b tl ih => intro init h; simpa using ih (f init b) (hf init b h)

end ALookupHelpers

section ClaimC8

/-- C8 (code bug): the claim — matching `SizeMatch`'s own documentation —
says elementwise `Add`/`Sub` raise `SizeNotMatch` exactly on
differently-shaped grids, and that equal-shaped grids are summed without
error. The source's `SizeMatch` compares `a.col` with `b.row` (a typo),
so `Add` of two equal-shaped 1×2 grids raises `SizeNotMatch`, while `Add`
of a 2×2 grid with a differently-shaped 2×3 grid does not raise. -/
theorem c8_sizematch_bug :
    Matrix.Add ⟨1, 2, [1, 2]⟩ ⟨1, 2, [3, 4]⟩ = .error .sizeNotMatch ∧
    Matrix.Add ⟨2, 2, [1, 2, 3, 4]⟩ ⟨2, 3, [10, 20, 30, 40, 50, 60]⟩ =
      .ok ⟨2, 2, [11, 22, 33, 44]⟩ ∧
    Matrix.SizeMatch (⟨1, 2, [1, 2]⟩ : Matrix Int) ⟨1, 2, [3, 4]⟩ = false ∧
    Matrix.SizeMatch (⟨2, 2, [1, 2, 3, 4]⟩ : Matrix Int) ⟨2, 3, [10, 20, 30, 40, 50, 60]⟩ = true := by
  refine ⟨?_, ?_, by decide, by decide⟩ <;> rfl

end ClaimC8

section ClaimC10

theorem restoreLoop_spec (t : MatrixTransformer α) (fill : α) (aid : Nat) :
    ∀ (todo done : List (Nat ⊕ α)) (h : Heap α),
      aid < h.arrays.length → h.arrays.getD aid [] = done ++ todo →
      restoreLoop t fill aid todo.length done.length h =
        ⟨h.arrays.set aid (done ++ todo.map (restoreRVal t fill))⟩ := by
  intro todo
  induction todo with
  | nil =>
    intro done h haid harr
    have hid : h.arrays.set aid (done ++ []) = h.arrays := by
      rw [List.append_nil] at harr ⊢
      rw [← harr]
      exact tp_set_getD_self h.arrays aid [] haid
    simp only [List.length_nil, restoreLoop, List.map_nil]
    rw [hid]
  | cons v rest ih =>
    intro done h haid harr
    have hv : (h.arrays.getD aid []).getD done.length (.inr fill) = v := by
      rw [harr]; exact tp_getD_append_length done v rest _
    have hset : (h.arrays.getD aid []).set done.length (restoreRVal t fill v) =
        done ++ restoreRVal t fill v :: rest := by
      rw [harr]; exact tp_set_append_length done v _ rest
    have hstep : restoreLoop t fill aid (rest.length + 1) done.length h =
        restoreLoop t fill aid rest.length (done.length + 1)
          ⟨h.arrays.set aid (done ++ restoreRVal t fill v :: rest)⟩ := by
      simp only [restoreLoop, hv, hset]
    have haid' : aid < (h.arrays.set aid (done ++ restoreRVal t fill v :: rest)).length := by
      simpa using haid
    have harr' : (h.arrays.set aid (done ++ restoreRVal t fill v :: rest)).getD aid [] =
        (done ++ [restoreRVal t fill v]) ++ rest := by
      rw [tp_getD_set_self _ _ _ _ haid]; simp
    have := ih (done ++ [restoreRVal t fill v])
      ⟨h.arrays.set aid (done ++ restoreRVal t fill v :: rest)⟩ haid' harr'
    simp only [List.length_append, List.length_singleton] at this
    rw [show (rest.length + 1) = (v :: rest).length from rfl] at hstep
    rw [hstep, this]
    congr 1
    rw [List.set_set]
    congr 1
    simp

/-- C10: `restore` mutates its input. Under the heap model, for a valid
flag matrix `m`, `restore(m, fill)` succeeds, the returned matrix is
backed by the *same* elements array as the input (same array reference
`m.aid`), and that array's post-call contents are the restored element
values — the original flags are gone from the input's array. All other
arrays of the heap are untouched (`List.set` only changes index `m.aid`). -/
theorem c10_restore_mutates_input (t : MatrixTransformer α) (h : Heap α) (m : MatRef)
    (fill : α) (haid : m.aid < h.arrays.length)
    (hlen : (h.arrays.getD m.aid []).length = m.row * m.col) :
    restore t h m fill =
      .ok (⟨m.row, m.col, m.aid⟩,
        ⟨h.arrays.set m.aid ((h.arrays.getD m.aid []).map (restoreRVal t fill))⟩) := by
  have hloop := restoreLoop_spec t fill m.aid (h.arrays.getD m.aid []) [] h haid (by simp)
  simp only [List.length_nil, List.nil_append] at hloop
  simp only [restore]
  rw [if_neg (by omega)]
  rw [hloop]

/-- Witness for C10 at a concrete heap: a single array `[flag 1, flag 5]`
with only flag 1 registered (to element 7); after `restore` with fill 9
the same array (reference 0) holds `[element 7, fill 9]`. -/
theorem c10_witness :
    restore (⟨[(7, 1)]⟩ : MatrixTransformer Nat) ⟨[[.inl 1, .inl 5]]⟩ ⟨1, 2, 0⟩ 9 =
      .ok (⟨1, 2, 0⟩, ⟨[[.inr 7, .inr 9]]⟩) :=
  (c10_restore_mutates_input ⟨[(7, 1)]⟩ ⟨[[.inl 1, .inl 5]]⟩ ⟨1, 2, 0⟩ 9
    (by decide) (by decide)).trans (by rfl)

end ClaimC10

section ClaimC2

open MatrixTrainer

/-- C2: determinism of `generate`. The seeded shuffle (`shuffle-seed`) and
seeded sampler (md5-based `Sample`) are pure functions of the caller's
seed, embedded as the function parameters `shuf`/`sample`; a fixed seed
fixes them. Two calls on identical trained state with identical arguments
return identical results (grid and score). The opt-in persistent query
cache only memoizes the pure expansion queries, so with the trained state
fixed between the two calls it cannot make them differ. -/
theorem c2_generate_deterministic (t1 t2 : MatrixTrainer α)
    (shuf1 shuf2 : List Nat → List Nat) (sample1 sample2 : List Nat → Option Nat)
    (row1 row2 col1 col2 : Nat) (amb1 amb2 : α) (opts1 opts2 : GenOptions)
    (ht : t1 = t2) (hshuf : shuf1 = shuf2) (hsample : sample1 = sample2)
    (hrow : row1 = row2) (hcol : col1 = col2) (hamb : amb1 = amb2) (hopts : opts1 = opts2) :
    generate t1 shuf1 sample1 row1 col1 amb1 opts1 =
      generate t2 shuf2 sample2 row2 col2 amb2 opts2 := by
  subst ht hshuf hsample hrow hcol hamb hopts
  rfl

/-- Witness for C2 at a concrete call. -/
theorem c2_witness :
    generate tTwo id sampleNone 1 1 99 defOpts = generate tTwo id sampleNone 1 1 99 defOpts :=
  c2_generate_deterministic tTwo tTwo id id sampleNone sampleNone 1 1 1 1 99 99 defOpts defOpts
    rfl rfl rfl rfl rfl rfl rfl

end ClaimC2

section GenHelpers

open MatrixTrainer

theorem generate_eq_of_genLoop (t : MatrixTrainer α) (shuf : List Nat → List Nat)
    (sample : List Nat → Option Nat) (row col : Nat) (amb : α) (opts : GenOptions)
    (s : Nat) (cells : List (Option Nat))
    (h : genLoop t shuf sample (opts.mode.getD "quality") row col
      (uniq (t.flags.map Prod.snd)) (row * col) 0 (uniq (t.flags.map Prod.snd))
      (List.replicate (row * col) (some 0)) = .ok (s, cells)) :
    generate t shuf sample row col amb opts =
      .ok ⟨(s : ℚ) / ((row * col : Nat) : ℚ), ⟨row, col, cells.map (t.restoreCellO amb)⟩⟩ := by
  simp only [generate, h]

theorem generate_err_of_genLoop (t : MatrixTrainer α) (shuf : List Nat → List Nat)
    (sample : List Nat → Option Nat) (row col : Nat) (amb : α) (opts : GenOptions)
    (e : GenError)
    (h : genLoop t shuf sample (opts.mode.getD "quality") row col
      (uniq (t.flags.map Prod.snd)) (row * col) 0 (uniq (t.flags.map Prod.snd))
      (List.replicate (row * col) (some 0)) = .error e) :
    generate t shuf sample row col amb opts = .error e := by
  simp only [generate, h]

theorem generateSpec_eq_of_genLoopSpec (t : MatrixTrainer α) (shuf : List Nat → List Nat)
    (sample : List Nat → Option Nat) (row col : Nat) (amb : α) (opts : GenOptions)
    (s : Nat) (cells : List (Option Nat))
    (h : genLoopSpec t shuf sample (opts.mode.getD "quality") row col
      (uniq (t.flags.map Prod.snd)) (row * col) 0 (uniq (t.flags.map Prod.snd))
      (List.replicate (row * col) (some 0)) = .ok (s, cells)) :
    generateSpec t shuf sample row col amb opts =
      .ok ⟨(s : ℚ) / ((row * col : Nat) : ℚ), ⟨row, col, cells.map (t.restoreCellO amb)⟩⟩ := by
  simp only [generateSpec, h]

theorem genLoop_succ (t : MatrixTrainer α) (shuf : List Nat → List Nat)
    (sample : List Nat → Option Nat) (mode : String) (row col : Nat) (nodes : List Nat)
    (n i : Nat) (subs : List Nat) (mat : List (Option Nat)) :
    genLoop t shuf sample mode row col nodes (n + 1) i subs mat =
      (match scanSubs t mat row col (i / col) (i % col)
          (shuf (if i % col = 0 ∧ 0 < i / col then
            t.nextAliasesC t.yn (matGet mat col (i / col - 1) 0) else subs)) none
          (shuf (if i % col = 0 ∧ 0 < i / col then
            t.nextAliasesC t.yn (matGet mat col (i / col - 1) 0) else subs)) with
        | (some e, subs3) =>
            genLoop t shuf sample mode row col nodes n (i + 1) subs3 (mat.set i (some e))
        | (none, subs3) =>
            if mode = "quality" then .ok (i, mat)
            else if mode = "fill" then
              genLoop t shuf sample mode row col nodes n (i + 1)
                (t.nextAliasesC t.xn (sample (if subs3.isEmpty then nodes else subs3)))
                (mat.set i (sample (if subs3.isEmpty then nodes else subs3)))
            else .error (.unknownMode mode)) := rfl

theorem judge_accept_eq (t : MatrixTrainer α) (mat : List (Option Nat))
    (row col rI cI sub : Nat) (xA : List Nat)
    (h : judge t mat row col rI cI sub = .accept xA) :
    xA = t.nextAliases t.xn sub := by
  simp only [judge] at h
  repeat' split at h
  all_goals cases h
  all_goals rfl

end GenHelpers

section ClaimC1

open MatrixTrainer

/-- C1 (amended): in the scan over the shuffled candidate pool, the
candidate left in `element` is the **last** candidate passing all checks
among the prefix scanned before the first candidate with an empty
x- or y-expansion (the source has no `break` after acceptance, so a later
passing candidate overwrites an earlier one), and the pool carried to the
next cell is that accepted candidate's `xAliases`
(`nextAliases(xGraph, ·)`); when nobody is accepted, `element` and the
pool are left as they were. -/
theorem c1_scan_accepts_last (t : MatrixTrainer α) (mat : List (Option Nat))
    (row col rI cI : Nat) :
    ∀ (l : List Nat) (e0 : Option Nat) (s0 : List Nat),
      scanSubs t mat row col rI cI l e0 s0 =
        match lastAccepted t mat row col rI cI l with
        | some e => (some e, t.nextAliases t.xn e)
        | none => (e0, s0) := by
  intro l
  induction l with
  | nil => intro e0 s0; simp [scanSubs, lastAccepted]
  | cons sub rest ih =>
    intro e0 s0
    match hj : judge t mat row col rI cI sub with
    | .breakScan =>
      have hv : viableB t mat row col rI cI sub = false := by simp [viableB, hj]
      simp [scanSubs, hj, lastAccepted, hv]
    | .skip =>
      have hv : viableB t mat row col rI cI sub = true := by simp [viableB, hj]
      have hac : acceptsB t mat row col rI cI sub = false := by simp [acceptsB, hj]
      have hstep : scanSubs t mat row col rI cI (sub :: rest) e0 s0 =
          scanSubs t mat row col rI cI rest e0 s0 := by
        simp [scanSubs, hj]
      have hla : lastAccepted t mat row col rI cI (sub :: rest) =
          lastAccepted t mat row col rI cI rest := by
        simp [lastAccepted, List.takeWhile_cons, hv, List.filter_cons, hac]
      rw [hstep, ih e0 s0, hla]
    | .accept xA =>
      have hxa : xA = t.nextAliases t.xn sub :=
        judge_accept_eq t mat row col rI cI sub xA hj
      have hv : viableB t mat row col rI cI sub = true := by simp [viableB, hj]
      have hac : acceptsB t mat row col rI cI sub = true := by simp [acceptsB, hj]
      have hstep : scanSubs t mat row col rI cI (sub :: rest) e0 s0 =
          scanSubs t mat row col rI cI rest (some sub) xA := by
        simp [scanSubs, hj]
      have hla : lastAccepted t mat row col rI cI (sub :: rest) =
          some ((lastAccepted t mat row col rI cI rest).getD sub) := by
        simp only [lastAccepted, List.takeWhile_cons, hv, if_true, List.filter_cons, hac]
        exact tp_getLast?_cons sub _
      rw [hstep, ih (some sub) xA, hla]
      cases h2 : lastAccepted t mat row col rI cI rest with
      | some e => rfl
      | none => rw [hxa]; rfl

/-- C1 counterexample: on the trainer trained from `[[10,20],[20,10]]`
(flags `10↦1`, `20↦2`, x- and y-edges `1↔2`), generating a 1×1 grid with
the identity shuffle scans the pool `[1, 2]`; the first candidate passing
all checks is `1`, but the cell is written with `2` (the last passing
candidate) — element `20` instead of the claim's `10` after restore. -/
theorem c1_counterexample :
    firstAccepted tTwo [some 0] 1 1 0 0 (uniq (tTwo.flags.map Prod.snd)) = some 1 ∧
    genLoop tTwo id sampleNone "quality" 1 1 (uniq (tTwo.flags.map Prod.snd)) (1 * 1) 0
      (uniq (tTwo.flags.map Prod.snd)) (List.replicate (1 * 1) (some 0)) = .ok (1, [some 2]) ∧
    tTwo.restoreCellO 99 (some 1) = 10 ∧
    tTwo.restoreCellO 99 (some 2) = 20 ∧
    (10 : Nat) ≠ 20 :=
  ⟨by decide, by rfl, by decide, by decide, by decide⟩

end ClaimC1

section ClaimC6

open MatrixTrainer

theorem tp_bool_eq_decide (b : Bool) (p : Prop) [Decidable p] (h : b = true ↔ p) :
    b = decide p := by
  by_cases hp : p
  · rw [h.mpr hp, decide_eq_true hp]
  · rw [Bool.eq_false_iff.mpr (fun hb => hp (h.mp hb)), decide_eq_false hp]

theorem hasTopB_eq_of_lt (row rI : Nat) (h : rI < row) :
    hasTopB row rI = decide (1 ≤ rI) := by
  apply tp_bool_eq_decide
  simp only [hasTopB, Matrix.OutOfRange, Bool.not_eq_true', Bool.or_eq_false_iff,
    decide_eq_false_iff_not, not_lt]
  constructor
  · rintro ⟨h1, h2⟩; omega
  · intro h1; constructor <;> omega

theorem hasLeftB_eq_of_lt (col cI : Nat) (h : cI < col) :
    hasLeftB col cI = decide (1 ≤ cI) := by
  apply tp_bool_eq_decide
  simp only [hasLeftB, Matrix.OutOfRange, Bool.not_eq_true', Bool.or_eq_false_iff,
    decide_eq_false_iff_not, not_lt]
  constructor
  · rintro ⟨h1, h2⟩; omega
  · intro h1; constructor <;> omega

theorem hasLeftB_plus_two (col cI : Nat) :
    hasLeftB col (cI + 2) = decide (cI + 2 ≤ col) := by
  apply tp_bool_eq_decide
  simp only [hasLeftB, Matrix.OutOfRange, Bool.not_eq_true', Bool.or_eq_false_iff,
    decide_eq_false_iff_not, not_lt]
  constructor
  · rintro ⟨h1, h2⟩; omega
  · intro h1; constructor <;> omega

/-- C6 (amended): for an in-range cell (`rowIndex < row`, `colIndex < col`)
the candidate examination of `generate` equals the arithmetic reference
`judgeN`: the top/left connectability check runs exactly when
`1 ≤ rowIndex ∧ 1 ≤ colIndex`, and the lookahead check runs exactly when
`1 ≤ rowIndex ∧ colIndex + 2 ≤ col` — that is, when the cell two columns
ahead would have a *left* neighbor, not (as the claim says) when
`colIndex + 2` is a valid column index. The lookahead body is as claimed:
it intersects the yGraph expansion of the top-right diagonal neighbor
with the candidate's `xAliases` and rejects the candidate when the
intersection is empty. -/
theorem c6_amended_lookahead_guard (t : MatrixTrainer α) (mat : List (Option Nat))
    (row col rowIndex colIndex sub : Nat) (hr : rowIndex < row) (hc : colIndex < col) :
    judge t mat row col rowIndex colIndex sub = judgeN t mat row col rowIndex colIndex sub := by
  simp only [judge, judgeN, hasTopB_eq_of_lt row rowIndex hr, hasLeftB_eq_of_lt col colIndex hc,
    hasLeftB_plus_two col colIndex]

/-- Witness for C6's amended theorem at the cell (1,0) of a 2×2 generation
over `tFour`, candidate 2 — the very configuration where the source's
guard and the claimed guard disagree. -/
theorem c6_amended_witness :
    judge tFour [some 4, some 3, some 0, some 0] 2 2 1 0 2 =
      judgeN tFour [some 4, some 3, some 0, some 0] 2 2 1 0 2 :=
  c6_amended_lookahead_guard tFour [some 4, some 3, some 0, some 0] 2 2 1 0 2
    (by decide) (by decide)

/-- C6 counterexample: over `tFour`, the source's `generate` and the
claim-guard variant `generateSpec` disagree on a concrete 2×2 call. At
cell (1,0) the source runs the lookahead (colIndex+2 = 2 ≤ col = 2,
though 2 is not a valid column index), rejects the only candidate and
aborts with score 2/4; under the claim's guard the lookahead does not
run, the candidate is accepted, and generation reaches score 3/4. -/
theorem c6_counterexample :
    generate tFour id sampleNone 2 2 99 defOpts ≠
      generateSpec tFour id sampleNone 2 2 99 defOpts := by
  have h1 := generate_eq_of_genLoop tFour id sampleNone 2 2 99 defOpts 2
    [some 4, some 3, some 0, some 0] (by rfl)
  have h2 := generateSpec_eq_of_genLoopSpec tFour id sampleNone 2 2 99 defOpts 3
    [some 4, some 3, some 2, some 0] (by rfl)
  rw [h1, h2]
  intro h
  simp only [Except.ok.injEq, GenResult.mk.injEq] at h
  have hs := h.1
  norm_num at hs

end ClaimC6

section ClaimC3

open MatrixTrainer

theorem genLoop_quality_zeros (t : MatrixTrainer α) (shuf : List Nat → List Nat)
    (sample : List Nat → Option Nat) (row col : Nat) (nodes : List Nat) :
    ∀ (n i : Nat) (subs : List Nat) (mat : List (Option Nat)) (s : Nat)
      (cells : List (Option Nat)),
      n + i = row * col →
      genLoop t shuf sample "quality" row col nodes n i subs mat = .ok (s, cells) →
      (∀ j, i ≤ j → j < mat.length → mat.getD j none = some 0) →
      cells.length = mat.length ∧
        ∀ j, s ≤ j → j < cells.length → cells.getD j none = some 0 := by
  intro n
  induction n with
  | zero =>
    intro i subs mat s cells hni hrun hinv
    simp only [genLoop, Except.ok.injEq, Prod.mk.injEq] at hrun
    obtain ⟨hs, hc⟩ := hrun
    subst hc
    refine ⟨rfl, fun j hj hjl => hinv j (by omega) hjl⟩
  | succ n ih =>
    intro i subs mat s cells hni hrun hinv
    rw [genLoop_succ] at hrun
    split at hrun
    · next e subs3 heq =>
      obtain ⟨hlen, hz⟩ := ih (i + 1) subs3 (mat.set i (some e)) s cells (by omega) hrun
        (fun j hj hjl => by
          rw [tp_getD_set_ne mat i j (some e) none (by omega)]
          exact hinv j (by omega) (by simpa using hjl))
      exact ⟨hlen.trans (by simp), hz⟩
    · next subs3 heq =>
      rw [if_pos rfl] at hrun
      simp only [Except.ok.injEq, Prod.mk.injEq] at hrun
      obtain ⟨hs, hc⟩ := hrun
      subst hc
      exact ⟨rfl, fun j hj hjl => hinv j (by omega) hjl⟩

/-- C3: quality-mode abort. If the quality-mode cell loop stops at flat
index `i` — which, by the loop's construction, happens exactly at the
first cell where no candidate is accepted, every earlier cell having
been filled — and `i` is short of `row*col`, then `generate` returns
score `i / (row*col)`, every cell with flat index `≥ i` still holds the
initial flag `0`, and in the restored output those cells hold the ambient
fill (flag `0` is never registered: `hasKey 0` is false). -/
theorem c3_quality_abort (t : MatrixTrainer α) (shuf : List Nat → List Nat)
    (sample : List Nat → Option Nat) (row col : Nat) (amb : α) (opts : GenOptions)
    (i : Nat) (cells : List (Option Nat))
    (hmode : opts.mode.getD "quality" = "quality")
    (hrun : genLoop t shuf sample "quality" row col (uniq (t.flags.map Prod.snd)) (row * col) 0
      (uniq (t.flags.map Prod.snd)) (List.replicate (row * col) (some 0)) = .ok (i, cells))
    (hlt : i < row * col)
    (h0 : t.toMatrixTransformer.hasKey 0 = false) :
    generate t shuf sample row col amb opts =
      .ok ⟨(i : ℚ) / ((row * col : Nat) : ℚ), ⟨row, col, cells.map (t.restoreCellO amb)⟩⟩ ∧
    (∀ j, i ≤ j → j < row * col → cells.getD j none = some 0) ∧
    (∀ j, i ≤ j → j < row * col → (cells.map (t.restoreCellO amb)).getD j amb = amb) := by
  obtain ⟨hlen, hz⟩ := genLoop_quality_zeros t shuf sample row col
    (uniq (t.flags.map Prod.snd)) (row * col) 0 (uniq (t.flags.map Prod.snd))
    (List.replicate (row * col) (some 0)) i cells (by omega) hrun
    (fun j hj hjl => tp_getD_replicate (row * col) j (some 0) none (by simpa using hjl))
  have hlen' : cells.length = row * col := by simpa using hlen
  have hcell : ∀ j, i ≤ j → j < row * col → cells.getD j none = some 0 :=
    fun j hj hjl => hz j hj (by omega)
  refine ⟨?_, hcell, ?_⟩
  · rw [← hmode] at hrun
    exact generate_eq_of_genLoop t shuf sample row col amb opts i cells hrun
  · intro j hj hjl
    rw [tp_getD_map (t.restoreCellO amb) cells j amb none (by omega), hcell j hj hjl]
    simp [restoreCellO, h0]

/-- Witness for C3: over `tFour`, the 2×2 quality generation aborts at
flat index 2; score is 2/4, cells 2 and 3 keep flag 0, and (checked here
at j = 3) restore to the ambient fill 99. -/
theorem c3_witness :
    generate tFour id sampleNone 2 2 99 defOpts =
      .ok ⟨((2 : Nat) : ℚ) / ((2 * 2 : Nat) : ℚ),
        ⟨2, 2, [some 4, some 3, some 0, some 0].map (tFour.restoreCellO 99)⟩⟩ ∧
    [some 4, some 3, some 0, some 0].getD 3 none = some 0 ∧
    ([some 4, some 3, some 0, some 0].map (tFour.restoreCellO 99)).getD 3 99 = 99 :=
  have h := c3_quality_abort tFour id sampleNone 2 2 99 defOpts 2
    [some 4, some 3, some 0, some 0] rfl (by rfl) (by decide) (by decide)
  ⟨h.1, h.2.1 3 (by decide) (by decide), h.2.2 3 (by decide) (by decide)⟩

end ClaimC3

section ClaimC4

open MatrixTrainer

theorem genLoop_fill_total (t : MatrixTrainer α) (shuf : List Nat → List Nat)
    (sample : List Nat → Option Nat) (row col : Nat) (nodes : List Nat) :
    ∀ (n i : Nat) (subs : List Nat) (mat : List (Option Nat)),
      ∃ cells, genLoop t shuf sample "fill" row col nodes n i subs mat =
        .ok (row * col, cells) := by
  intro n
  induction n with
  | zero => intro i subs mat; exact ⟨mat, rfl⟩
  | succ n ih =>
    intro i subs mat
    rw [genLoop_succ]
    split
    · next e subs3 heq => exact ih (i + 1) subs3 (mat.set i (some e))
    · next subs3 heq =>
      rw [if_neg (by decide), if_pos rfl]
      exact ih (i + 1) _ _

/-- C4: fill mode never aborts. With `mode = 'fill'` the generation (1)
completes every cell and returns score 1 (`size/size`, with a nonempty
grid); (2) at any cell where the scan accepts no candidate, the loop
forces the cell to the seeded sample of the current pool — or of the set
of all known flags when the pool is empty — and continues (the step
equation); and (3) any value the sampler yields comes from the current
pool when it is nonempty and from the known flags otherwise (given the
membership property of `Sample`, which always returns an element of the
array it indexes into). -/
theorem c4_fill_never_aborts (t : MatrixTrainer α) (shuf : List Nat → List Nat)
    (sample : List Nat → Option Nat) (row col : Nat) (amb : α) (opts : GenOptions)
    (hmode : opts.mode.getD "quality" = "fill") (hsize : 0 < row * col)
    (hs : ∀ (l : List Nat) (x : Nat), sample l = some x → x ∈ l) :
    (∃ M, generate t shuf sample row col amb opts = .ok ⟨1, M⟩) ∧
    (∀ (nodes : List Nat) (n i : Nat) (subs : List Nat) (mat : List (Option Nat))
        (subs3 : List Nat),
      scanSubs t mat row col (i / col) (i % col)
        (shuf (if i % col = 0 ∧ 0 < i / col then
          t.nextAliasesC t.yn (matGet mat col (i / col - 1) 0) else subs)) none
        (shuf (if i % col = 0 ∧ 0 < i / col then
          t.nextAliasesC t.yn (matGet mat col (i / col - 1) 0) else subs)) = (none, subs3) →
      genLoop t shuf sample "fill" row col nodes (n + 1) i subs mat =
        genLoop t shuf sample "fill" row col nodes n (i + 1)
          (t.nextAliasesC t.xn (sample (if subs3.isEmpty then nodes else subs3)))
          (mat.set i (sample (if subs3.isEmpty then nodes else subs3)))) ∧
    (∀ (pool nodes : List Nat) (x : Nat),
      sample (if pool.isEmpty then nodes else pool) = some x →
      (pool = [] ∧ x ∈ nodes) ∨ (pool ≠ [] ∧ x ∈ pool)) := by
  refine ⟨?_, ?_, ?_⟩
  · obtain ⟨cells, hcells⟩ := genLoop_fill_total t shuf sample row col
      (uniq (t.flags.map Prod.snd)) (row * col) 0 (uniq (t.flags.map Prod.snd))
      (List.replicate (row * col) (some 0))
    rw [← hmode] at hcells
    refine ⟨⟨row, col, cells.map (t.restoreCellO amb)⟩, ?_⟩
    rw [generate_eq_of_genLoop t shuf sample row col amb opts (row * col) cells hcells,
      show ((row * col : Nat) : ℚ) / ((row * col : Nat) : ℚ) = 1 from
        div_self (Nat.cast_ne_zero.mpr (by omega))]
  · intro nodes n i subs mat subs3 hscan
    rw [genLoop_succ, hscan]
    rfl
  · intro pool nodes x hx
    by_cases hp : pool.isEmpty
    · simp only [hp, if_true] at hx
      exact .inl ⟨List.isEmpty_iff.mp hp, hs nodes x hx⟩
    · simp only [hp, if_false] at hx
      exact .inr ⟨fun hn => hp (by simp [hn]), hs pool x hx⟩

/-- Witness for C4 over `tFour` in fill mode with the head sampler: the
call returns score 1; the step equation holds at the concrete stuck cell
`i = 2`; and the sampled value for a nonempty pool `[5]` comes from the
pool. -/
theorem c4_witness :
    (∃ M, generate tFour id sampleHead 2 2 99 ⟨none, some "fill"⟩ = .ok ⟨1, M⟩) ∧
    genLoop tFour id sampleHead "fill" 2 2 [1, 2, 3, 4] 2 2 [4]
        [some 4, some 3, some 0, some 0] =
      genLoop tFour id sampleHead "fill" 2 2 [1, 2, 3, 4] 1 3
        (tFour.nextAliasesC tFour.xn (sampleHead (if ([2] : List Nat).isEmpty then [1, 2, 3, 4] else [2])))
        ([some 4, some 3, some 0, some 0].set 2 (sampleHead (if ([2] : List Nat).isEmpty then [1, 2, 3, 4] else [2]))) ∧
    ((([5] : List Nat) = [] ∧ 5 ∈ ([1] : List Nat)) ∨
      (([5] : List Nat) ≠ [] ∧ 5 ∈ ([5] : List Nat))) := by
  have h := c4_fill_never_aborts tFour id sampleHead 2 2 99 ⟨none, some "fill"⟩
    rfl (by decide) (fun l x hx => List.mem_of_mem_head? (by simpa [sampleHead] using hx))
  exact ⟨h.1, h.2.1 [1, 2, 3, 4] 1 2 [4] [some 4, some 3, some 0, some 0] [2] (by rfl),
    h.2.2 [5] [1] 5 (by rfl)⟩

end ClaimC4

section ClaimC5

open MatrixTrainer

theorem genLoop_badmode (t : MatrixTrainer α) (shuf : List Nat → List Nat)
    (sample : List Nat → Option Nat) (mode : String) (row col : Nat) (nodes : List Nat)
    (hq : mode ≠ "quality") (hf : mode ≠ "fill") :
    ∀ (n i : Nat) (subs : List Nat) (mat : List (Option Nat)),
      genLoop t shuf sample mode row col nodes n i subs mat = .error (.unknownMode mode) ∨
      ∃ cells, genLoop t shuf sample mode row col nodes n i subs mat =
        .ok (row * col, cells) := by
  intro n
  induction n with
  | zero => intro i subs mat; exact .inr ⟨mat, rfl⟩
  | succ n ih =>
    intro i subs mat
    rw [genLoop_succ]
    split
    · next e subs3 heq => exact ih (i + 1) subs3 (mat.set i (some e))
    · next subs3 heq =>
      rw [if_neg hq, if_neg hf]
      exact .inl rfl

/-- C5 (amended): a `generate` call whose merged mode is neither
`quality` nor `fill` fails with UnknownMode only when some cell accepts
no candidate — the check sits inside the per-cell loop, in the
no-candidate branch. When every cell accepts a candidate the call
completes normally with the full score `size/size`. (Consequently the
failure, when it happens, is raised mid-generation, after earlier cells
of the work matrix were already filled — not before any mutation.) -/
theorem c5_amended_unknown_mode (t : MatrixTrainer α) (shuf : List Nat → List Nat)
    (sample : List Nat → Option Nat) (row col : Nat) (amb : α) (opts : GenOptions)
    (hq : opts.mode.getD "quality" ≠ "quality") (hf : opts.mode.getD "quality" ≠ "fill") :
    generate t shuf sample row col amb opts =
      .error (.unknownMode (opts.mode.getD "quality")) ∨
    ∃ M, generate t shuf sample row col amb opts =
      .ok ⟨((row * col : Nat) : ℚ) / ((row * col : Nat) : ℚ), M⟩ := by
  rcases genLoop_badmode t shuf sample (opts.mode.getD "quality") row col
      (uniq (t.flags.map Prod.snd)) hq hf (row * col) 0 (uniq (t.flags.map Prod.snd))
      (List.replicate (row * col) (some 0)) with herr | ⟨cells, hok⟩
  · exact .inl (generate_err_of_genLoop t shuf sample row col amb opts _ herr)
  · exact .inr ⟨⟨row, col, cells.map (t.restoreCellO amb)⟩,
      generate_eq_of_genLoop t shuf sample row col amb opts (row * col) cells hok⟩

/-- Witness for C5's amended theorem: over `tFour` with mode `"abc"`, the
2×2 call hits a cell with no accepted candidate and the disjunction is
realized by the UnknownMode error. -/
theorem c5_amended_witness :
    generate tFour id sampleNone 2 2 99 ⟨none, some "abc"⟩ =
      .error (.unknownMode ((GenOptions.mk none (some "abc")).mode.getD "quality")) ∨
    ∃ M, generate tFour id sampleNone 2 2 99 ⟨none, some "abc"⟩ =
      .ok ⟨((2 * 2 : Nat) : ℚ) / ((2 * 2 : Nat) : ℚ), M⟩ :=
  c5_amended_unknown_mode tFour id sampleNone 2 2 99 ⟨none, some "abc"⟩
    (by decide) (by decide)

/-- C5 counterexample: a `generate` call with the unrecognized mode
`"abc"` that does **not** fail: on `tTwo` the single cell of a 1×1 grid
accepts a candidate, the mode is never inspected, and the call returns
normally — refuting "for every call with an unrecognized mode, the call
fails with UnknownMode". -/
theorem c5_counterexample :
    ("abc" ≠ "quality" ∧ "abc" ≠ "fill") ∧
    generate tTwo id sampleNone 1 1 99 ⟨none, some "abc"⟩ =
      .ok ⟨((1 : Nat) : ℚ) / ((1 * 1 : Nat) : ℚ),
        ⟨1, 1, [some 2].map (tTwo.restoreCellO 99)⟩⟩ := by
  refine ⟨⟨by decide, by decide⟩, ?_⟩
  exact generate_eq_of_genLoop tTwo id sampleNone 1 1 99 ⟨none, some "abc"⟩ 1 [some 2] (by rfl)

end ClaimC5

section ClaimC7

open MatrixTrainer

/-- C7: dataset round-trip. With the `node-relation` export/import
modelled from the spec (the dataset tuple carries the graph stores
verbatim), `load(trainer.dataset)` rebuilds a state *equal* to the
original trainer — the flag table survives `new Map(...)` because
training never registers an element twice — and therefore every
subsequent query (`nextAliases` on either graph, `generate` with any
fixed seed functions and arguments) answers identically. -/
theorem c7_dataset_roundtrip (t t0 : MatrixTrainer α)
    (hnd : (t.flags.map Prod.fst).Nodup) :
    t0.load t.dataset = t ∧
    (∀ f, (t0.load t.dataset).nextAliases (t0.load t.dataset).xn f =
      t.nextAliases t.xn f) ∧
    (∀ f, (t0.load t.dataset).nextAliases (t0.load t.dataset).yn f =
      t.nextAliases t.yn f) ∧
    (∀ (shuf : List Nat → List Nat) (sample : List Nat → Option Nat) (row col : Nat)
        (amb : α) (opts : GenOptions),
      generate (t0.load t.dataset) shuf sample row col amb opts =
        generate t shuf sample row col amb opts) := by
  have hload : t0.load t.dataset = t := by
    obtain ⟨⟨flags⟩, ⟨xr⟩, ⟨yr⟩, ⟨sr⟩⟩ := t
    have hf : jsMapOfList flags = flags := jsMapOfList_self flags (by simpa using hnd)
    simp [load, dataset, hf]
  exact ⟨hload, fun f => by rw [hload], fun f => by rw [hload],
    fun shuf sample row col amb opts => by rw [hload]⟩

/-- Witness for C7 at the concrete state `tFour`. -/
theorem c7_witness :
    (MatrixTrainer.empty Nat).load tFour.dataset = tFour ∧
    ((MatrixTrainer.empty Nat).load tFour.dataset).nextAliases
        ((MatrixTrainer.empty Nat).load tFour.dataset).xn 1 =
      tFour.nextAliases tFour.xn 1 ∧
    generate ((MatrixTrainer.empty Nat).load tFour.dataset) id sampleNone 2 2 99 defOpts =
      generate tFour id sampleNone 2 2 99 defOpts :=
  have h := c7_dataset_roundtrip tFour (MatrixTrainer.empty Nat) (by decide)
  ⟨h.1, h.2.1 1, h.2.2.2 id sampleNone 2 2 99 defOpts⟩

end ClaimC7

section ClaimC9

open MatrixTransformer MatrixTrainer

theorem toMT_update_xn (u : MatrixTrainer α) (g : Relationship) :
    ({ u with xn := g } : MatrixTrainer α).toMatrixTransformer = u.toMatrixTransformer := rfl

theorem toMT_update_yn (u : MatrixTrainer α) (g : Relationship) :
    ({ u with yn := g } : MatrixTrainer α).toMatrixTransformer = u.toMatrixTransformer := rfl

theorem toMT_update_sim (u : MatrixTrainer α) (g : Relationship) :
    ({ u with sim := g } : MatrixTrainer α).toMatrixTransformer = u.toMatrixTransformer := rfl

theorem ensureFlag_flagInv (t : MatrixTransformer α) (k : α) (h : FlagInv t) :
    FlagInv (t.ensureFlag k).2 := by
  obtain ⟨hv, hk⟩ := h
  unfold ensureFlag
  cases hl : alookup t.flags k with
  | some v => exact ⟨hv, hk⟩
  | none =>
    constructor
    · simp [hv, List.range_succ]
    · simp only [List.map_append]
      refine List.Nodup.append hk (by simp) ?_
      have hkn : k ∉ t.flags.map Prod.fst := (alookup_eq_none_iff t.flags k).mp hl
      intro a ha hb
      simp only [List.map_cons, List.map_nil, List.mem_singleton] at hb
      subst hb
      exact hkn ha

theorem ensureFlagT_flagInv (t : MatrixTrainer α) (k : α) (h : FlagInv t.toMatrixTransformer) :
    FlagInv (t.ensureFlagT k).2.toMatrixTransformer :=
  ensureFlag_flagInv t.toMatrixTransformer k h

theorem trainStep_flagInv [Inhabited α] (m : Matrix α) (t : MatrixTrainer α) (p : Nat × α)
    (h : FlagInv t.toMatrixTransformer) : FlagInv (trainStep m t p).toMatrixTransformer := by
  unfold trainStep
  dsimp only
  have h1 := ensureFlagT_flagInv t p.2 h
  split
  · refine ensureFlagT_flagInv _ _ ?_
    split
    · exact ensureFlagT_flagInv _ _ h1
    · exact h1
  · split
    · exact ensureFlagT_flagInv _ _ h1
    · exact h1

theorem train_flagInv [Inhabited α] (t : MatrixTrainer α) (m : Matrix α)
    (h : FlagInv t.toMatrixTransformer) : FlagInv (t.train m).toMatrixTransformer :=
  tp_foldl_preserves (fun s => FlagInv s.toMatrixTransformer) (trainStep m)
    (fun s b hs => trainStep_flagInv m s b hs) m.elements.enum t h

theorem allyStep_flagInv (acc : List (Nat × List Nat) × MatrixTrainer α) (tup : α × List α)
    (h : FlagInv acc.2.toMatrixTransformer) :
    FlagInv (allyStep acc tup).2.toMatrixTransformer :=
  tp_foldl_preserves
    (fun (s : List Nat × MatrixTrainer α) => FlagInv s.2.toMatrixTransformer) allyInnerStep
    (fun s b hs => ensureFlagT_flagInv s.2 b hs) tup.2 ([], (acc.2.ensureFlagT tup.1).2)
    (ensureFlagT_flagInv acc.2 tup.1 h)

theorem ally_flagInv (t : MatrixTrainer α) (groups : List (α × List α))
    (h : FlagInv t.toMatrixTransformer) : FlagInv (t.ally groups).toMatrixTransformer :=
  tp_foldl_preserves
    (fun (s : List (Nat × List Nat) × MatrixTrainer α) => FlagInv s.2.toMatrixTransformer)
    allyStep (fun s b hs => allyStep_flagInv s b hs) groups ([], t) h

theorem load_flagInv (t0 : MatrixTrainer α) (ds : MTDataset α)
    (h : FlagInv (⟨ds.1⟩ : MatrixTransformer α)) :
    FlagInv (t0.load ds).toMatrixTransformer := by
  have hj : jsMapOfList ds.1 = ds.1 := jsMapOfList_self ds.1 (by simpa using h.2)
  show FlagInv (⟨jsMapOfList ds.1⟩ : MatrixTransformer α)
  rw [hj]
  exact h

/-- C9: `ensureFlag` and flag uniqueness. (1) A registered element keeps
its existing flag and the registry is untouched; (2) an unregistered
element is appended with flag `size + 1`; (3) the registry invariant
`FlagInv` — flags are exactly `1..n` in insertion order, no element
registered twice — is preserved by `ensureFlag`, holds for a fresh
trainer, and is preserved by `train`, `ally`, and by `load` of any
dataset whose flag table itself satisfies it (in particular one exported
from a trainer with the invariant); (4) under the invariant, distinct
elements always hold distinct flags. -/
theorem c9_ensureFlag_registry {α : Type} [DecidableEq α] [Inhabited α] :
    (∀ (t : MatrixTransformer α) (k : α) (v : Nat),
      alookup t.flags k = some v → t.ensureFlag k = (v, t)) ∧
    (∀ (t : MatrixTransformer α) (k : α), alookup t.flags k = none →
      t.ensureFlag k = (t.flags.length + 1, ⟨t.flags ++ [(k, t.flags.length + 1)]⟩)) ∧
    (∀ (t : MatrixTransformer α) (k : α), FlagInv t → FlagInv (t.ensureFlag k).2) ∧
    FlagInv (MatrixTrainer.empty α).toMatrixTransformer ∧
    (∀ (t : MatrixTrainer α) (m : Matrix α), FlagInv t.toMatrixTransformer →
      FlagInv (t.train m).toMatrixTransformer) ∧
    (∀ (t : MatrixTrainer α) (groups : List (α × List α)), FlagInv t.toMatrixTransformer →
      FlagInv (t.ally groups).toMatrixTransformer) ∧
    (∀ (t0 : MatrixTrainer α) (ds : MTDataset α), FlagInv (⟨ds.1⟩ : MatrixTransformer α) →
      FlagInv (t0.load ds).toMatrixTransformer) ∧
    (∀ (t : MatrixTransformer α), FlagInv t → ∀ (a b : α) (fa fb : Nat),
      t.getFlag a = some fa → t.getFlag b = some fb → a ≠ b → fa ≠ fb) := by
  refine ⟨?_, ?_, fun t k h => ensureFlag_flagInv t k h, ⟨rfl, List.nodup_nil⟩,
    fun t m h => train_flagInv t m h, fun t g h => ally_flagInv t g h,
    fun t0 ds h => load_flagInv t0 ds h, ?_⟩
  · intro t k v h
    simp [ensureFlag, h]
  · intro t k h
    simp [ensureFlag, h]
  · intro t h a b fa fb ha hb hab
    have hvnd : (t.flags.map Prod.snd).Nodup := by
      rw [h.1]
      exact (List.nodup_range _).map (fun x y hxy => by omega)
    exact alookup_inj t.flags hvnd a b fa fb ha hb hab

/-- Witness for C9 at concrete registries: existing flag returned
unchanged; fresh element appended with flag 2; the invariant holds after
the insertion, for a fresh trainer, for the trained `tTwo`, and after
loading `tFour`'s dataset; and the two flags of a two-element registry
differ. -/
theorem c9_witness :
    MatrixTransformer.ensureFlag (⟨[(5, 1)]⟩ : MatrixTransformer Nat) 5 = (1, ⟨[(5, 1)]⟩) ∧
    MatrixTransformer.ensureFlag (⟨[(5, 1)]⟩ : MatrixTransformer Nat) 6 =
      (2, ⟨[(5, 1), (6, 2)]⟩) ∧
    FlagInv (MatrixTransformer.ensureFlag (⟨[(5, 1)]⟩ : MatrixTransformer Nat) 6).2 ∧
    FlagInv (MatrixTrainer.empty Nat).toMatrixTransformer ∧
    FlagInv (tTwo.train ⟨1, 2, [30, 10]⟩).toMatrixTransformer ∧
    FlagInv ((MatrixTrainer.empty Nat).load tFour.dataset).toMatrixTransformer ∧
    (1 : Nat) ≠ 2 :=
  ⟨c9_ensureFlag_registry.1 ⟨[(5, 1)]⟩ 5 1 (by decide),
    c9_ensureFlag_registry.2.1 ⟨[(5, 1)]⟩ 6 (by decide),
    c9_ensureFlag_registry.2.2.1 ⟨[(5, 1)]⟩ 6 ⟨by decide, by decide⟩,
    c9_ensureFlag_registry.2.2.2.1,
    c9_ensureFlag_registry.2.2.2.2.1 tTwo ⟨1, 2, [30, 10]⟩ ⟨by decide, by decide⟩,
    c9_ensureFlag_registry.2.2.2.2.2.2.1 (MatrixTrainer.empty Nat) tFour.dataset
      ⟨by decide, by decide⟩,
    c9_ensureFlag_registry.2.2.2.2.2.2.2 ⟨[(5, 1), (6, 2)]⟩ ⟨by decide, by decide⟩ 5 6 1 2
      (by decide) (by decide) (by decide)⟩

end ClaimC9

end TP

